import Mathlib

/-!
Verification development for the federated-learning coordination core of the
vAIn repository, src/core/federated_learning.py (class FederatedLearning).

The embedding is shallow and elementwise: every tensor operation performed by
the source (noise addition, mean, median, weighted average) acts independently
on each array element, so a single element stands for a whole named tensor.
Element values are modelled exactly by the type PyVal below: finite values are
exact rationals, and the IEEE specials that numpy produces (positive and
negative infinity, NaN) are explicit constructors, because the source divides
numpy arrays by a possibly-zero integer and numpy returns inf and NaN there
instead of raising.

Python exceptions raised by the source (ValueError, KeyError, IndexError) are
modelled by the FLError type; methods that can raise return the object state
reached at the point of the raise together with an optional error, mirroring
the fact that a propagating Python exception leaves earlier attribute
mutations in place.

Client training, model evaluation and the Gaussian noise draws are external
effects (Keras calls, numpy RNG); they enter the model as oracles in RoundEnv.
Thread completion order in async_train_clients is collapsed to program order;
no theorem below depends on the order of updates in the collected list.
-/

set_option maxHeartbeats 1600000

/-- One numpy floating-point scalar, modelled exactly: a finite value is an
exact rational, and the infinities and NaN are the specials numpy produces on
division by zero.  All tensor arithmetic in federated_learning.py is
elementwise, so one PyVal stands for a whole named weight tensor. -/
inductive PyVal where
  | fin : ℚ → PyVal
  | pinf : PyVal
  | ninf : PyVal
  | nan : PyVal
  deriving DecidableEq

/-- Elementwise numpy addition, with IEEE special-value rules: NaN absorbs,
opposite infinities give NaN, an infinity plus a finite value keeps its sign. -/
def PyVal.add : PyVal → PyVal → PyVal
  | .fin a, .fin b => .fin (a + b)
  | .fin _, .pinf => .pinf
  | .fin _, .ninf => .ninf
  | .fin _, .nan => .nan
  | .pinf, .fin _ => .pinf
  | .pinf, .pinf => .pinf
  | .pinf, .ninf => .nan
  | .pinf, .nan => .nan
  | .ninf, .fin _ => .ninf
  | .ninf, .pinf => .nan
  | .ninf, .ninf => .ninf
  | .ninf, .nan => .nan
  | .nan, _ => .nan

/-- Numpy multiplication of a float tensor by a nonnegative integer, as in
update weights times num_samples: infinity times zero is NaN, infinity times a
positive count keeps its sign, NaN absorbs. -/
def PyVal.mulNat : PyVal → Nat → PyVal
  | .fin a, n => .fin (a * (n : ℚ))
  | .pinf, 0 => .nan
  | .pinf, _ + 1 => .pinf
  | .ninf, 0 => .nan
  | .ninf, _ + 1 => .ninf
  | .nan, _ => .nan

/-- Numpy division of a float tensor by a nonnegative integer, as in the
weighted average division by total_samples and the mean division by the list
length.  Numpy does not raise on a zero divisor: zero over zero is NaN, a
nonzero finite value over zero is a signed infinity, an infinity stays itself,
NaN absorbs. -/
def PyVal.divNat : PyVal → Nat → PyVal
  | .fin a, 0 => if a = 0 then .nan else if 0 < a then .pinf else .ninf
  | .fin a, n + 1 => .fin (a / ((n + 1 : Nat) : ℚ))
  | .pinf, _ => .pinf
  | .ninf, _ => .ninf
  | .nan, _ => .nan

/-- Python float comparison val_loss < best_loss: any comparison against NaN
is false, finite values compare as rationals, every finite value and ninf are
below pinf. -/
def PyVal.lt : PyVal → PyVal → Bool
  | .fin a, .fin b => decide (a < b)
  | .fin _, .pinf => true
  | .ninf, .fin _ => true
  | .ninf, .pinf => true
  | _, _ => false

/-- Numpy sort order used by np.median: ninf, then finite values, then pinf,
with NaN sorted last. -/
def PyVal.le : PyVal → PyVal → Bool
  | _, .nan => true
  | .ninf, _ => true
  | .fin a, .fin b => decide (a ≤ b)
  | .fin _, .pinf => true
  | .pinf, .pinf => true
  | _, _ => false

/-- A weight mapping, Python dict name to tensor: an association list with the
dict's insertion order and unique keys.  One PyVal per name stands for the
whole tensor (all source operations are elementwise). -/
abbrev Weights := List (String × PyVal)

/-- Python dict indexing update weights at key; none models a KeyError. -/
def lookupW : Weights → String → Option PyVal
  | [], _ => none
  | (k, v) :: rest, key => if k = key then some v else lookupW rest key

/-- One client update as built by _train_client: the dict with the trained
weights and num_samples = len(data).  The source update dict has exactly these
two entries. -/
structure ClientUpdate where
  weights : Weights
  numSamples : Nat
  deriving DecidableEq

/-- The Python exceptions the modelled code can raise: the two ValueError
raises in aggregate_updates, a KeyError from dict indexing inside an
aggregation comprehension, and the IndexError that client_updates[0] would
raise on an empty list (unreachable through aggregate_updates, which raises
the empty-updates ValueError first). -/
inductive FLError where
  | valueErrorEmptyUpdates : FLError
  | valueErrorUnsupportedMethod : String → FLError
  | keyError : String → FLError
  | indexError : FLError
  deriving DecidableEq

/-- The mutable attribute state of a FederatedLearning object.  learning_rate,
optimizer and adaptive are initialized by the constructor but never read by
any method modelled here, so they are omitted; checkpoint_dir is a fixed
directory, modelled by the write log in checkpoints (epoch key and saved
weights, in write order). -/
structure FLState where
  globalWeights : Weights
  clientWeights : List Weights
  aggregationMethod : String
  patience : Nat
  bestLoss : PyVal
  epochsWithoutImprovement : Nat
  secureAggregationFlag : Bool
  checkpoints : List (Nat × Weights)
  deriving DecidableEq

/-- FederatedLearning.__init__: stores the configuration unvalidated and
initializes best_loss to float('inf') and epochs_without_improvement to 0.
The constructor performs no check of aggregation_method. -/
def initFL (globalWeights : Weights) (clientWeights : List Weights)
    (aggregationMethod : String) (patience : Nat)
    (secureAggregationFlag : Bool) : FLState :=
  { globalWeights := globalWeights
    clientWeights := clientWeights
    aggregationMethod := aggregationMethod
    patience := patience
    bestLoss := PyVal.pinf
    epochsWithoutImprovement := 0
    secureAggregationFlag := secureAggregationFlag
    checkpoints := [] }

/-- The list of (value, num_samples) pairs an aggregation comprehension reads
for one parameter name: update weights at key for each update in order,
stopping with a KeyError at the first update whose dict lacks the key. -/
def collectColumn : List ClientUpdate → String → Except FLError (List (PyVal × Nat))
  | [], _ => Except.ok []
  | u :: us, key =>
    match lookupW u.weights key with
    | none => Except.error (FLError.keyError key)
    | some v =>
      match collectColumn us key with
      | Except.error e => Except.error e
      | Except.ok col => Except.ok ((v, u.numSamples) :: col)

/-- The dict comprehension shared by the three aggregation methods: iterate
the keys of client_updates[0] weights in order, and for each key read the
column across all updates and combine it into one value. -/
def aggKeys (combine : List (PyVal × Nat) → PyVal) (updates : List ClientUpdate) :
    List (String × PyVal) → Except FLError Weights
  | [] => Except.ok []
  | (key, _) :: rest =>
    match collectColumn updates key with
    | Except.error e => Except.error e
    | Except.ok col =>
      match aggKeys combine updates rest with
      | Except.error e => Except.error e
      | Except.ok w => Except.ok ((key, combine col) :: w)

/-- An aggregation method body: index client_updates[0] (IndexError on an
empty list) and build the aggregated dict over its keys. -/
def aggBy (combine : List (PyVal × Nat) → PyVal) : List ClientUpdate → Except FLError Weights
  | [] => Except.error FLError.indexError
  | u :: us => aggKeys combine (u :: us) u.weights

/-- Python sum over a list of numpy scalars: the int 0 start value plus each
element in order. -/
def pySum (l : List PyVal) : PyVal := l.foldl PyVal.add (PyVal.fin 0)

/-- np.mean over a list: the sum divided by the length (NaN on an empty
list, matching numpy's mean of an empty slice). -/
def pyMean (l : List PyVal) : PyVal := (pySum l).divNat l.length

/-- Insertion step of the sort underlying np.median. -/
def insertSorted (x : PyVal) : List PyVal → List PyVal
  | [] => [x]
  | y :: ys => if x.le y then x :: y :: ys else y :: insertSorted x ys

/-- The sort underlying np.median, with numpy's order (NaN last). -/
def pySort (l : List PyVal) : List PyVal := l.foldr insertSorted []

/-- np.median over a list: the middle sorted value for an odd count, the mean
of the two middle sorted values for an even count. -/
def pyMedian (l : List PyVal) : PyVal :=
  if (pySort l).length % 2 = 1 then
    (pySort l).getD ((pySort l).length / 2) (PyVal.fin 0)
  else
    (((pySort l).getD ((pySort l).length / 2 - 1) (PyVal.fin 0)).add
      ((pySort l).getD ((pySort l).length / 2) (PyVal.fin 0))).divNat 2

/-- Per-key combiner of _average_aggregation: np.mean of the column values. -/
def meanCombine (col : List (PyVal × Nat)) : PyVal := pyMean (col.map Prod.fst)

/-- Per-key combiner of _median_aggregation: np.median of the column values. -/
def medianCombine (col : List (PyVal × Nat)) : PyVal := pyMedian (col.map Prod.fst)

/-- Per-key combiner of _weighted_average_aggregation: the sum over updates of
weights times num_samples divided by total_samples, each term divided
separately exactly as in the source generator expression. -/
def weightedCombine (total : Nat) (col : List (PyVal × Nat)) : PyVal :=
  pySum (col.map (fun vn => (vn.1.mulNat vn.2).divNat total))

/-- _average_aggregation without its final set_weights call: the aggregated
weight mapping it computes. -/
def averageWeights (updates : List ClientUpdate) : Except FLError Weights :=
  aggBy meanCombine updates

/-- _median_aggregation without its final set_weights call. -/
def medianWeights (updates : List ClientUpdate) : Except FLError Weights :=
  aggBy medianCombine updates

/-- _weighted_average_aggregation without its final set_weights call:
total_samples is the sum of num_samples over the updates, and is used as the
per-term divisor. -/
def weightedAverageWeights (updates : List ClientUpdate) : Except FLError Weights :=
  aggBy (weightedCombine ((updates.map (fun u => u.numSamples)).sum)) updates

/-- Adding one update's drawn noise values, one per key, to its weight dict,
as the inner loop of _secure_aggregation does. -/
def addNoiseTo (draw : String → ℚ) : Weights → Weights
  | [] => []
  | (k, v) :: rest => (k, v.add (PyVal.fin (draw k))) :: addNoiseTo draw rest

/-- _secure_aggregation, with the numpy RNG draws supplied as an oracle: noise
i k is the value np.random.normal(0, 0.1, shape) drew for update i at key k.
The source hardcodes the noise level 0.1 and exposes no sigma parameter; it
rebinds each weight entry to its old value plus the draw.  The index threads
the update position. -/
def secureAggregationFrom (noise : Nat → String → ℚ) : Nat → List ClientUpdate → List ClientUpdate
  | _, [] => []
  | i, u :: us =>
    { u with weights := addNoiseTo (noise i) u.weights } :: secureAggregationFrom noise (i + 1) us

/-- _secure_aggregation over a whole update list. -/
def secureAggregation (noise : Nat → String → ℚ) (updates : List ClientUpdate) : List ClientUpdate :=
  secureAggregationFrom noise 0 updates

/-- aggregate_updates: raise on an empty update list, apply secure aggregation
when the flag is set, then dispatch on the aggregation method string, calling
set_weights with the aggregated mapping on success and raising ValueError on
an unknown method.  The returned pair is the object state at return or at the
point of the raise, with the optional exception. -/
def aggregateUpdates (noise : Nat → String → ℚ) (clientUpdates : List ClientUpdate)
    (s : FLState) : FLState × Option FLError :=
  if clientUpdates = [] then (s, some FLError.valueErrorEmptyUpdates)
  else
    let updates := if s.secureAggregationFlag then secureAggregation noise clientUpdates
                   else clientUpdates
    if s.aggregationMethod = "average" then
      match averageWeights updates with
      | Except.ok w => ({ s with globalWeights := w }, none)
      | Except.error e => (s, some e)
    else if s.aggregationMethod = "median" then
      match medianWeights updates with
      | Except.ok w => ({ s with globalWeights := w }, none)
      | Except.error e => (s, some e)
    else if s.aggregationMethod = "weighted_average" then
      match weightedAverageWeights updates with
      | Except.ok w => ({ s with globalWeights := w }, none)
      | Except.error e => (s, some e)
    else (s, some (FLError.valueErrorUnsupportedMethod s.aggregationMethod))

/-- The external effects of one round, supplied as oracles: trainResult i w is
what client i's get_weights returns after train(data_i, epochs) was called on
a client holding weights w; numSamplesOf i is len(data_i); noise is the numpy
RNG oracle of _secure_aggregation; evalLoss w is what the global model with
weights w returns from evaluate(validation_data). -/
structure RoundEnv where
  trainResult : Nat → Weights → Weights
  numSamplesOf : Nat → Nat
  noise : Nat → String → ℚ
  evalLoss : Weights → PyVal

/-- distribute_model: every client model receives the global model's current
weights by set_weights. -/
def distributeModel (s : FLState) : FLState :=
  { s with clientWeights := s.clientWeights.map (fun _ => s.globalWeights) }

/-- The training effect of async_train_clients on the client models: the first
n clients, those paired with a dataset by zip(client_models, train_data), are
mutated by their own train call; the rest keep their weights. -/
def trainAllFrom (env : RoundEnv) (n : Nat) : Nat → List Weights → List Weights
  | _, [] => []
  | i, w :: ws => (if i < n then env.trainResult i w else w) :: trainAllFrom env n (i + 1) ws

/-- async_train_clients: zip(client_models, train_data) launches one training
task per paired client; each task trains its model and appends one update with
the trained weights and num_samples = len(data).  Thread completion order is
collapsed to program order (no theorem below depends on update order). -/
def asyncTrainClients (env : RoundEnv) (trainDataLen : Nat) (s : FLState) :
    FLState × List ClientUpdate :=
  ({ s with clientWeights :=
      trainAllFrom env (min s.clientWeights.length trainDataLen) 0 s.clientWeights },
   (List.range (min s.clientWeights.length trainDataLen)).map (fun i =>
     { weights := env.trainResult i (s.clientWeights.getD i [])
       numSamples := env.numSamplesOf i }))

/-- Python truthiness of the validation_data argument (default None): None and
the empty list are both falsy. -/
def pyTruthy : Option Nat → Bool
  | none => false
  | some n => decide (n ≠ 0)

/-- The early-stopping block at the end of global_training_round: when
validation_data is truthy, evaluate the global model; on strict improvement
reset the counter, record the new best loss and save a checkpoint keyed by the
epochs argument; otherwise increment the counter.  Reaching the patience bound
only logs a message and returns, changing nothing further. -/
def validationPhase (env : RoundEnv) (epochs : Nat) (validationData : Option Nat)
    (s : FLState) : FLState :=
  if pyTruthy validationData then
    if (env.evalLoss s.globalWeights).lt s.bestLoss then
      { s with bestLoss := env.evalLoss s.globalWeights
               epochsWithoutImprovement := 0
               checkpoints := s.checkpoints ++ [(epochs, s.globalWeights)] }
    else
      { s with epochsWithoutImprovement := s.epochsWithoutImprovement + 1 }
  else s

/-- global_training_round: distribute, train all clients, aggregate (a raise
there propagates, leaving the state reached so far), then run the
early-stopping block when validation data is given.  validationData carries
the length of the validation list, none for the default None. -/
def globalTrainingRound (env : RoundEnv) (trainDataLen epochs : Nat)
    (validationData : Option Nat) (s : FLState) : FLState × Option FLError :=
  let tr := asyncTrainClients env trainDataLen (distributeModel s)
  let ag := aggregateUpdates env.noise tr.2 tr.1
  if ag.2.isSome then ag
  else (validationPhase env epochs validationData ag.1, none)

/-- load_checkpoint reads the file checkpoint_epoch_{e}.h5, whose content is
the last save_checkpoint write with that epoch key; none models the absent
file. -/
def loadCheckpoint (log : List (Nat × Weights)) (epoch : Nat) : Option Weights :=
  ((log.filter (fun c => c.1 == epoch)).getLast?).map Prod.snd

/-- Spec-side early-stopping labels from section 4.4 of the specification. -/
inductive RunStatus where
  | improving : RunStatus
  | stalled : Nat → RunStatus
  | stopped : RunStatus
  deriving DecidableEq

/-- Spec-side view: the specification's early-stopping state labels expressed
over the coordinator state (Improving when the counter is 0, Stalled k for k
consecutive stalls, Stopped once the counter reaches patience). -/
def specStatus (s : FLState) : RunStatus :=
  if s.patience ≤ s.epochsWithoutImprovement then RunStatus.stopped
  else if s.epochsWithoutImprovement = 0 then RunStatus.improving
  else RunStatus.stalled s.epochsWithoutImprovement

deriving instance DecidableEq for Except

/-- A generic oracle for concrete runs: every client trains to weights
{w: 5.0}, every dataset has 2 samples, the noise oracle would draw 0, and
evaluation returns 9.0. -/
def demoEnv : RoundEnv :=
  { trainResult := fun _ _ => [("w", PyVal.fin 5)]
    numSamplesOf := fun _ => 2
    noise := fun _ _ => 0
    evalLoss := fun _ => PyVal.fin 9 }

/-- A generic concrete coordinator: one client, average aggregation, secure
aggregation off, global weights {w: 0.0}. -/
def demoState : FLState :=
  initFL [("w", PyVal.fin 0)] [[("w", PyVal.fin 0)]] "average" 3 false

/-- The single client update of the zero-total-samples scenario: weights
{w: 2.0} trained on an empty dataset, so num_samples = 0. -/
def c1update : ClientUpdate := { weights := [("w", PyVal.fin 2)], numSamples := 0 }

/-- Coordinator configured for weighted_average with secure aggregation off
and global weights {w: 1.0}. -/
def c1state : FLState := initFL [("w", PyVal.fin 1)] [] "weighted_average" 3 false

/-- Round oracle of the early-stopping scenario: training echoes the client's
weights, one sample per client, and the validation loss is the given rational
whatever the weights are. -/
def lossEnv (loss : ℚ) : RoundEnv :=
  { trainResult := fun _ w => w
    numSamplesOf := fun _ => 1
    noise := fun _ _ => 0
    evalLoss := fun _ => PyVal.fin loss }

/-- Start state of the early-stopping scenario: patience 2, one client,
average aggregation, secure aggregation off. -/
def c2init : FLState := initFL [("w", PyVal.fin 1)] [[("w", PyVal.fin 1)]] "average" 2 false

/-- State after round 1 of the scenario with validation losses 0.5, 0.6, 0.7. -/
def c2s1 : FLState := (globalTrainingRound (lossEnv (1/2)) 1 1 (some 1) c2init).1

/-- State after round 2 of the scenario. -/
def c2s2 : FLState := (globalTrainingRound (lossEnv (3/5)) 1 1 (some 1) c2s1).1

/-- State after round 3 of the scenario. -/
def c2s3 : FLState := (globalTrainingRound (lossEnv (7/10)) 1 1 (some 1) c2s2).1

/-- One client update used to exercise the noise application. -/
def c5update : ClientUpdate := { weights := [("w", PyVal.fin 1)], numSamples := 1 }

/-- Round oracle of the first improving round of the checkpoint scenario:
clients train to {w: 2.0}, validation loss 0.5. -/
def c6envA : RoundEnv :=
  { trainResult := fun _ _ => [("w", PyVal.fin 2)]
    numSamplesOf := fun _ => 1
    noise := fun _ _ => 0
    evalLoss := fun _ => PyVal.fin (1/2) }

/-- Round oracle of the second improving round: clients train to {w: 4.0},
validation loss 0.4. -/
def c6envB : RoundEnv :=
  { trainResult := fun _ _ => [("w", PyVal.fin 4)]
    numSamplesOf := fun _ => 1
    noise := fun _ _ => 0
    evalLoss := fun _ => PyVal.fin (2/5) }

/-- Start state of the checkpoint scenario: one client, average aggregation,
secure aggregation off. -/
def c6s0 : FLState := initFL [("w", PyVal.fin 0)] [[("w", PyVal.fin 0)]] "average" 3 false

/-- State after the first improving round, run with epochs = 1. -/
def c6s1 : FLState := (globalTrainingRound c6envA 1 1 (some 1) c6s0).1

/-- State after the second improving round, again run with epochs = 1. -/
def c6s2 : FLState := (globalTrainingRound c6envB 1 1 (some 1) c6s1).1

/-- A coordinator state in which early stopping has been signaled: patience 1
and epochs_without_improvement already 1. -/
def c7state : FLState :=
  { globalWeights := [("w", PyVal.fin 0)]
    clientWeights := [[("w", PyVal.fin 0)]]
    aggregationMethod := "average"
    patience := 1
    bestLoss := PyVal.fin (1/2)
    epochsWithoutImprovement := 1
    secureAggregationFlag := false
    checkpoints := [] }

/-- Two updates with equal positive sample counts, used to instantiate the
weighted-average-equals-average theorem. -/
def c8updates : List ClientUpdate :=
  [{ weights := [("w", PyVal.fin 1)], numSamples := 2 },
   { weights := [("w", PyVal.fin 3)], numSamples := 2 }]

/-- First update of the key-mismatch scenario: keys {a} only. -/
def c9u0 : ClientUpdate := { weights := [("a", PyVal.fin 1)], numSamples := 1 }

/-- Second update of the key-mismatch scenario: keys {a, b}. -/
def c9u1 : ClientUpdate :=
  { weights := [("a", PyVal.fin 2), ("b", PyVal.fin 3)], numSamples := 1 }

/-- Coordinator of the key-mismatch scenario: the global model has keys
{a, b}, so the first update's key set disagrees with it. -/
def c9state : FLState :=
  initFL [("a", PyVal.fin 0), ("b", PyVal.fin 7)] [] "average" 3 false


/-- Adding a finite zero is the identity on every numpy value. -/
theorem PyVal.add_fin_zero (v : PyVal) : v.add (PyVal.fin 0) = v := by
  cases v <;> simp [PyVal.add]

/-- Division by a positive integer, on a finite value, is exact rational
division. -/
theorem PyVal.divNat_fin_pos (a : ℚ) (m : Nat) (hm : 0 < m) :
    (PyVal.fin a).divNat m = PyVal.fin (a / (m : ℚ)) := by
  cases m with
  | zero => exact absurd hm (by omega)
  | succ k => rfl

/-- Division by a positive integer distributes over numpy addition, special
values included. -/
theorem PyVal.add_divNat (a b : PyVal) (m : Nat) (hm : 0 < m) :
    (a.add b).divNat m = (a.divNat m).add (b.divNat m) := by
  obtain ⟨k, rfl⟩ : ∃ k, m = k + 1 := ⟨m - 1, by omega⟩
  cases a <;> cases b <;> simp [PyVal.add, PyVal.divNat, add_div]

/-- Multiplying by n and dividing by L * n is dividing by L, for positive n
and L, on every numpy value including the specials. -/
theorem PyVal.mulNat_divNat (v : PyVal) (n L : Nat) (hn : 0 < n) (hL : 0 < L) :
    (v.mulNat n).divNat (L * n) = v.divNat L := by
  have hLn : 0 < L * n := Nat.mul_pos hL hn
  obtain ⟨k, rfl⟩ : ∃ k, n = k + 1 := ⟨n - 1, by omega⟩
  cases v with
  | fin a =>
    rw [show (PyVal.fin a).mulNat (k + 1) = PyVal.fin (a * ((k + 1 : Nat) : ℚ)) from rfl,
        PyVal.divNat_fin_pos _ _ hLn, PyVal.divNat_fin_pos _ _ hL]
    have hkq : ((k + 1 : Nat) : ℚ) ≠ 0 := Nat.cast_ne_zero.mpr (by omega)
    congr 1
    rw [Nat.cast_mul]
    rw [mul_comm (L : ℚ) ((k + 1 : Nat) : ℚ), ← div_div, mul_div_assoc, div_self hkq, mul_one]
  | pinf => rfl
  | ninf => rfl
  | nan => rfl

/-- Folding numpy addition over a list of values each divided by m, starting
from a divided accumulator, is the divided fold. -/
theorem foldl_add_map_divNat (l : List PyVal) (m : Nat) (hm : 0 < m) :
    ∀ acc : PyVal, (l.map (fun v => v.divNat m)).foldl PyVal.add (acc.divNat m)
      = (l.foldl PyVal.add acc).divNat m := by
  induction l with
  | nil => intro acc; rfl
  | cons x xs ih =>
    intro acc
    simp only [List.map_cons, List.foldl_cons]
    rw [← PyVal.add_divNat acc x m hm]
    exact ih (acc.add x)

/-- Python sum of a list of values each divided by m equals the sum divided
by m, for positive m. -/
theorem pySum_map_divNat (l : List PyVal) (m : Nat) (hm : 0 < m) :
    pySum (l.map (fun v => v.divNat m)) = (pySum l).divNat m := by
  unfold pySum
  have h0 : (PyVal.fin 0).divNat m = PyVal.fin 0 := by
    rw [PyVal.divNat_fin_pos 0 m hm]; norm_num
  conv_lhs => rw [← h0]
  exact foldl_add_map_divNat l m hm (PyVal.fin 0)

/-- When every sample count in a column equals n, the weighted combiner with
total equal to the column length times n coincides with the mean combiner. -/
theorem weightedCombine_eq_meanCombine (col : List (PyVal × Nat)) (n : Nat)
    (hn : 0 < n) (hcol : ∀ p ∈ col, p.2 = n) (hL : 0 < col.length) :
    weightedCombine (col.length * n) col = meanCombine col := by
  unfold weightedCombine meanCombine pyMean
  have h1 : col.map (fun vn => (vn.1.mulNat vn.2).divNat (col.length * n))
      = (col.map Prod.fst).map (fun v => v.divNat col.length) := by
    rw [List.map_map]
    apply List.map_congr_left
    intro p hp
    simp only [Function.comp_apply]
    rw [hcol p hp, PyVal.mulNat_divNat p.1 n col.length hn hL]
  rw [h1, pySum_map_divNat _ _ hL, List.length_map]

/-- The sample counts of a successfully collected column are exactly the
updates' num_samples, in order. -/
theorem collectColumn_ok_snd (updates : List ClientUpdate) (key : String) :
    ∀ col, collectColumn updates key = Except.ok col →
      col.map Prod.snd = updates.map (fun u => u.numSamples) := by
  induction updates with
  | nil =>
    intro col h
    simp only [collectColumn] at h
    cases h
    rfl
  | cons u us ih =>
    intro col h
    simp only [collectColumn] at h
    cases hl : lookupW u.weights key with
    | none => rw [hl] at h; cases h
    | some v =>
      rw [hl] at h
      cases hc : collectColumn us key with
      | error e => rw [hc] at h; cases h
      | ok col2 =>
        rw [hc] at h
        cases h
        simp [ih col2 hc]

/-- A successfully collected column means every update's dict has the key. -/
theorem collectColumn_ok_lookup (updates : List ClientUpdate) (key : String) :
    ∀ col, collectColumn updates key = Except.ok col →
      ∀ u ∈ updates, (lookupW u.weights key).isSome = true := by
  induction updates with
  | nil => intro col _ u hu; cases hu
  | cons u0 us ih =>
    intro col h u hu
    simp only [collectColumn] at h
    cases hl : lookupW u0.weights key with
    | none => rw [hl] at h; cases h
    | some v =>
      rw [hl] at h
      cases hc : collectColumn us key with
      | error e => rw [hc] at h; cases h
      | ok col2 =>
        cases hu with
        | head => rw [hl]; rfl
        | tail _ hmem => exact ih col2 hc u hmem

/-- A successful aggregation result has exactly the key list it iterated
over, in order: the keys of the first update. -/
theorem aggKeys_ok_fst (combine : List (PyVal × Nat) → PyVal) (updates : List ClientUpdate) :
    ∀ kvs w, aggKeys combine updates kvs = Except.ok w →
      w.map Prod.fst = kvs.map Prod.fst := by
  intro kvs
  induction kvs with
  | nil =>
    intro w h
    simp only [aggKeys] at h
    cases h
    rfl
  | cons kv rest ih =>
    intro w h
    obtain ⟨key, v⟩ := kv
    simp only [aggKeys] at h
    cases hc : collectColumn updates key with
    | error e => rw [hc] at h; cases h
    | ok col =>
      rw [hc] at h
      cases ha : aggKeys combine updates rest with
      | error e => rw [ha] at h; cases h
      | ok w2 =>
        rw [ha] at h
        cases h
        simp [ih w2 ha]

/-- A successful aggregation collected every iterated key's column. -/
theorem aggKeys_ok_columns (combine : List (PyVal × Nat) → PyVal) (updates : List ClientUpdate) :
    ∀ kvs w, aggKeys combine updates kvs = Except.ok w →
      ∀ p ∈ kvs, ∃ col, collectColumn updates p.1 = Except.ok col := by
  intro kvs
  induction kvs with
  | nil => intro w _ p hp; cases hp
  | cons kv rest ih =>
    intro w h p hp
    obtain ⟨key, v⟩ := kv
    simp only [aggKeys] at h
    cases hc : collectColumn updates key with
    | error e => rw [hc] at h; cases h
    | ok col =>
      rw [hc] at h
      cases ha : aggKeys combine updates rest with
      | error e => rw [ha] at h; cases h
      | ok w2 =>
        cases hp with
        | head => exact ⟨col, hc⟩
        | tail _ hmem => exact ih w2 ha p hmem

/-- Two combiners that agree on every column actually collected give the same
aggregation result. -/
theorem aggKeys_congr (f g : List (PyVal × Nat) → PyVal) (updates : List ClientUpdate)
    (h : ∀ key col, collectColumn updates key = Except.ok col → f col = g col) :
    ∀ kvs, aggKeys f updates kvs = aggKeys g updates kvs := by
  intro kvs
  induction kvs with
  | nil => rfl
  | cons kv rest ih =>
    obtain ⟨key, v⟩ := kv
    simp only [aggKeys]
    cases hc : collectColumn updates key with
    | error e => rfl
    | ok col => simp only [ih, h key col hc]

/-- The total sample count over updates that all report n samples each. -/
theorem map_numSamples_sum (updates : List ClientUpdate) (n : Nat)
    (h : ∀ u ∈ updates, u.numSamples = n) :
    (updates.map (fun u => u.numSamples)).sum = updates.length * n := by
  induction updates with
  | nil => simp
  | cons u us ih =>
    simp only [List.map_cons, List.sum_cons, List.length_cons]
    rw [h u (by simp), ih (fun v hv => h v (by simp [hv]))]
    ring

/-- aggregate_updates only ever mutates the global model's weights: the state
it returns differs from the input state in global_weights at most. -/
theorem aggregateUpdates_fst (noise : Nat → String → ℚ) (updates : List ClientUpdate)
    (s : FLState) :
    (aggregateUpdates noise updates s).1
      = { s with globalWeights := (aggregateUpdates noise updates s).1.globalWeights } := by
  unfold aggregateUpdates
  dsimp only
  repeat' split
  all_goals rfl

/-- The early-stopping block never touches the global weights, the client
models, the configuration or the patience bound. -/
theorem validationPhase_proj (env : RoundEnv) (epochs : Nat) (vd : Option Nat) (s : FLState) :
    (validationPhase env epochs vd s).globalWeights = s.globalWeights
    ∧ (validationPhase env epochs vd s).patience = s.patience
    ∧ (validationPhase env epochs vd s).aggregationMethod = s.aggregationMethod
    ∧ (validationPhase env epochs vd s).secureAggregationFlag = s.secureAggregationFlag
    ∧ (validationPhase env epochs vd s).clientWeights = s.clientWeights := by
  unfold validationPhase
  repeat' split
  all_goals exact ⟨rfl, rfl, rfl, rfl, rfl⟩

/-- With validation_data equal to None the early-stopping block is skipped
entirely. -/
theorem validationPhase_none (env : RoundEnv) (epochs : Nat) (s : FLState) :
    validationPhase env epochs none s = s := rfl

/-- The early-stopping block on a truthy validation argument, improving case. -/
theorem validationPhase_truthy_improve (env : RoundEnv) (epochs : Nat) (vd : Option Nat)
    (s : FLState) (hv : pyTruthy vd = true)
    (hl : (env.evalLoss s.globalWeights).lt s.bestLoss = true) :
    validationPhase env epochs vd s
      = { s with bestLoss := env.evalLoss s.globalWeights
                 epochsWithoutImprovement := 0
                 checkpoints := s.checkpoints ++ [(epochs, s.globalWeights)] } := by
  unfold validationPhase
  rw [hv, hl]
  simp

/-- The early-stopping block on a truthy validation argument, stalling case. -/
theorem validationPhase_truthy_stall (env : RoundEnv) (epochs : Nat) (vd : Option Nat)
    (s : FLState) (hv : pyTruthy vd = true)
    (hl : (env.evalLoss s.globalWeights).lt s.bestLoss = false) :
    validationPhase env epochs vd s
      = { s with epochsWithoutImprovement := s.epochsWithoutImprovement + 1 } := by
  unfold validationPhase
  rw [hv, hl]
  simp

/-- An error-free round is exactly the early-stopping block applied to the
state after aggregation. -/
theorem globalTrainingRound_ok (env : RoundEnv) (tdl epochs : Nat) (vd : Option Nat)
    (s : FLState) (h : (globalTrainingRound env tdl epochs vd s).2 = none) :
    globalTrainingRound env tdl epochs vd s
      = (validationPhase env epochs vd
          (aggregateUpdates env.noise (asyncTrainClients env tdl (distributeModel s)).2
            (asyncTrainClients env tdl (distributeModel s)).1).1, none) := by
  unfold globalTrainingRound at h ⊢
  by_cases hs : (aggregateUpdates env.noise (asyncTrainClients env tdl (distributeModel s)).2
      (asyncTrainClients env tdl (distributeModel s)).1).2.isSome = true
  · rw [if_pos hs] at h
    rw [h] at hs
    simp at hs
  · rw [if_neg hs] at h ⊢

/-- aggregate_updates never reads the early-stopping counter: running it on a
state whose counter was replaced gives the same result with the counter
carried along unchanged. -/
theorem aggregateUpdates_ewi_comm (noise : Nat → String → ℚ) (updates : List ClientUpdate)
    (s : FLState) (k : Nat) :
    aggregateUpdates noise updates { s with epochsWithoutImprovement := k }
      = ({ (aggregateUpdates noise updates s).1 with epochsWithoutImprovement := k },
         (aggregateUpdates noise updates s).2) := by
  unfold aggregateUpdates
  dsimp only
  repeat' split
  all_goals rfl

/-- The early-stopping block reads the counter only to increment it: every
other resulting field is independent of the counter's starting value. -/
theorem validationPhase_ewi_comm (env : RoundEnv) (epochs : Nat) (vd : Option Nat)
    (s : FLState) (k : Nat) :
    (validationPhase env epochs vd { s with epochsWithoutImprovement := k }).globalWeights
      = (validationPhase env epochs vd s).globalWeights
    ∧ (validationPhase env epochs vd { s with epochsWithoutImprovement := k }).checkpoints
      = (validationPhase env epochs vd s).checkpoints
    ∧ (validationPhase env epochs vd { s with epochsWithoutImprovement := k }).bestLoss
      = (validationPhase env epochs vd s).bestLoss
    ∧ (validationPhase env epochs vd { s with epochsWithoutImprovement := k }).clientWeights
      = (validationPhase env epochs vd s).clientWeights := by
  unfold validationPhase
  dsimp only
  repeat' split
  all_goals exact ⟨rfl, rfl, rfl, rfl⟩

/-- The trained-clients step never reads the early-stopping counter. -/
theorem asyncTrainClients_ewi_comm (env : RoundEnv) (tdl : Nat) (s : FLState) (k : Nat) :
    asyncTrainClients env tdl (distributeModel { s with epochsWithoutImprovement := k })
      = ({ (asyncTrainClients env tdl (distributeModel s)).1 with epochsWithoutImprovement := k },
         (asyncTrainClients env tdl (distributeModel s)).2) := rfl

/-- C1: on one client update with weights {w: 2.0} and num_samples = 0 the
total sample count is 0, yet weighted-average aggregation raises nothing:
numpy evaluates 2.0 * 0 / 0 to NaN, so aggregate_updates returns without an
exception and set_weights is called with the all-NaN mapping, changing the
global model's weights.  This contradicts the claim that the round fails with
DivisionByZero and leaves the global model unchanged. -/
theorem c1_zero_total_samples_no_raise :
    ([c1update].map (fun u => u.numSamples)).sum = 0
    ∧ (aggregateUpdates (fun _ _ => 0) [c1update] c1state).2 = none
    ∧ (aggregateUpdates (fun _ _ => 0) [c1update] c1state).1.globalWeights = [("w", PyVal.nan)]
    ∧ c1state.globalWeights ≠ [("w", PyVal.nan)] :=
  of_decide_eq_true (by with_unfolding_all rfl)

/-- C3 counterexample: constructing a coordinator with the unknown aggregation
method foo succeeds (the constructor stores the string unvalidated), and the
ValueError for the unsupported method is raised during aggregation of a
nonempty update list, contradicting the claim that the error is raised at
construction and never during aggregation. -/
theorem c3_unknown_method_counterexample :
    (initFL [("w", PyVal.fin 0)] [] "foo" 3 false).aggregationMethod = "foo"
    ∧ (aggregateUpdates (fun _ _ => 0) [c5update]
        (initFL [("w", PyVal.fin 0)] [] "foo" 3 false)).2
      = some (FLError.valueErrorUnsupportedMethod "foo") :=
  of_decide_eq_true (by with_unfolding_all rfl)

/-- C3 as amended: an aggregation method outside average, median and
weighted_average passes the constructor unchecked and causes every aggregation
call on a nonempty update list to return the unsupported-method ValueError,
with the state unchanged (set_weights is never reached). -/
theorem c3_unknown_method_at_aggregation (noise : Nat → String → ℚ)
    (updates : List ClientUpdate) (s : FLState)
    (hne : updates ≠ [])
    (h1 : s.aggregationMethod ≠ "average")
    (h2 : s.aggregationMethod ≠ "median")
    (h3 : s.aggregationMethod ≠ "weighted_average") :
    aggregateUpdates noise updates s
      = (s, some (FLError.valueErrorUnsupportedMethod s.aggregationMethod)) := by
  unfold aggregateUpdates
  simp only [if_neg hne, if_neg h1, if_neg h2, if_neg h3]

/-- C3 witness: the amended theorem applied at the method foo with one
concrete update. -/
theorem c3_unknown_method_witness :
    aggregateUpdates (fun _ _ => 0) [c5update] (initFL [("w", PyVal.fin 1)] [] "foo" 3 false)
      = (initFL [("w", PyVal.fin 1)] [] "foo" 3 false,
         some (FLError.valueErrorUnsupportedMethod "foo")) := by
  exact c3_unknown_method_at_aggregation (fun _ _ => 0) [c5update]
    (initFL [("w", PyVal.fin 1)] [] "foo" 3 false)
    (of_decide_eq_true (by with_unfolding_all rfl))
    (of_decide_eq_true (by with_unfolding_all rfl))
    (of_decide_eq_true (by with_unfolding_all rfl))
    (of_decide_eq_true (by with_unfolding_all rfl))

/-- C4: a round that collects no client updates (here: no client is paired
with a dataset by zip) fails with the empty-updates ValueError raised by
aggregate_updates, and the global model's weights are exactly what they were
before the round. -/
theorem c4_empty_updates (env : RoundEnv) (tdl epochs : Nat) (vd : Option Nat)
    (s : FLState) (h : min s.clientWeights.length tdl = 0) :
    (globalTrainingRound env tdl epochs vd s).2 = some FLError.valueErrorEmptyUpdates
    ∧ (globalTrainingRound env tdl epochs vd s).1.globalWeights = s.globalWeights := by
  have hupd : (asyncTrainClients env tdl (distributeModel s)).2 = [] := by
    unfold asyncTrainClients distributeModel
    simp [h]
  unfold globalTrainingRound
  dsimp only
  rw [hupd]
  exact ⟨rfl, rfl⟩

/-- C4 witness: the theorem applied to a concrete coordinator with one client
and an empty train_data list. -/
theorem c4_empty_updates_witness :
    (globalTrainingRound demoEnv 0 1 none demoState).2
      = some FLError.valueErrorEmptyUpdates := by
  exact (c4_empty_updates demoEnv 0 1 none demoState
    (of_decide_eq_true (by with_unfolding_all rfl))).1

/-- C5 counterexample: the noise application is not the identity on the
updates it is given; with a draw of 0.1 the output weights differ from the
input weights.  The source exposes no sigma parameter at all (the noise level
0.1 is hardcoded), so no sigma = 0 no-op mode exists. -/
theorem c5_noise_changes_updates :
    secureAggregation (fun _ _ => 1/10) [c5update] ≠ [c5update] :=
  of_decide_eq_true (by with_unfolding_all rfl)

/-- Adding zero noise to every key leaves a weight dict unchanged. -/
theorem addNoiseTo_zero (w : Weights) : addNoiseTo (fun _ => 0) w = w := by
  induction w with
  | nil => rfl
  | cons kv rest ih =>
    obtain ⟨k, v⟩ := kv
    simp only [addNoiseTo]
    rw [ih, PyVal.add_fin_zero]

/-- C5 as amended: the noise application adds the drawn values to every weight
entry and is the identity exactly when every draw is zero; this theorem is the
if direction, for all updates at once. -/
theorem c5_zero_draw_identity (updates : List ClientUpdate) :
    secureAggregation (fun _ _ => 0) updates = updates := by
  unfold secureAggregation
  suffices h : ∀ i l, secureAggregationFrom (fun _ _ => 0) i l = l from h 0 updates
  intro i l
  induction l generalizing i with
  | nil => rfl
  | cons u us ih =>
    simp only [secureAggregationFrom]
    rw [ih]
    have hw : addNoiseTo ((fun _ _ => (0 : ℚ)) i) u.weights = u.weights := addNoiseTo_zero u.weights
    rw [hw]

/-- C6: with epochs = 1, two consecutive improving validated rounds (losses
0.5 then 0.4) each call save_checkpoint(epochs), so both checkpoint writes use
the key 1 even though they are distinct rounds with distinct weights; reading
checkpoint_epoch_1 afterwards returns only the second round's weights, the
first write having been overwritten. -/
theorem c6_checkpoint_overwrite_eval :
    c6s1.epochsWithoutImprovement = 0
    ∧ c6s2.epochsWithoutImprovement = 0
    ∧ c6s2.checkpoints = [(1, [("w", PyVal.fin 2)]), (1, [("w", PyVal.fin 4)])]
    ∧ loadCheckpoint c6s2.checkpoints 1 = some [("w", PyVal.fin 4)]
    ∧ loadCheckpoint c6s2.checkpoints 1 ≠ some [("w", PyVal.fin 2)] :=
  of_decide_eq_true (by with_unfolding_all rfl)

/-- C7 counterexample: in a state where early stopping has been signaled
(patience 1, counter 1), a further call to global_training_round completes
without error and changes the global model's weights, contradicting the claim
that the stopped state is terminal and the model is never mutated thereafter. -/
theorem c7_round_after_stop_mutates :
    c7state.patience ≤ c7state.epochsWithoutImprovement
    ∧ (globalTrainingRound demoEnv 1 1 none c7state).2 = none
    ∧ (globalTrainingRound demoEnv 1 1 none c7state).1.globalWeights ≠ c7state.globalWeights :=
  of_decide_eq_true (by with_unfolding_all rfl)

/-- C7 as amended: the source records no stopped state at all, and the round
never consults the early-stopping counter before acting: for every value of
epochs_without_improvement (in particular any value at or beyond patience),
global_training_round produces the same error outcome, the same global
weights, the same checkpoint log, the same best loss and the same client
models, so a round after early stopping was signaled runs exactly as any
other round. -/
theorem c7_round_ignores_counter (env : RoundEnv) (tdl epochs : Nat) (vd : Option Nat)
    (s : FLState) (k : Nat) :
    (globalTrainingRound env tdl epochs vd { s with epochsWithoutImprovement := k }).2
      = (globalTrainingRound env tdl epochs vd s).2
    ∧ (globalTrainingRound env tdl epochs vd { s with epochsWithoutImprovement := k }).1.globalWeights
      = (globalTrainingRound env tdl epochs vd s).1.globalWeights
    ∧ (globalTrainingRound env tdl epochs vd { s with epochsWithoutImprovement := k }).1.checkpoints
      = (globalTrainingRound env tdl epochs vd s).1.checkpoints
    ∧ (globalTrainingRound env tdl epochs vd { s with epochsWithoutImprovement := k }).1.bestLoss
      = (globalTrainingRound env tdl epochs vd s).1.bestLoss
    ∧ (globalTrainingRound env tdl epochs vd { s with epochsWithoutImprovement := k }).1.clientWeights
      = (globalTrainingRound env tdl epochs vd s).1.clientWeights := by
  unfold globalTrainingRound
  dsimp only
  rw [asyncTrainClients_ewi_comm]
  dsimp only
  rw [aggregateUpdates_ewi_comm]
  dsimp only
  split
  · exact ⟨rfl, rfl, rfl, rfl, rfl⟩
  · obtain ⟨h1, h2, h3, h4⟩ := validationPhase_ewi_comm env epochs vd
      (aggregateUpdates env.noise (asyncTrainClients env tdl (distributeModel s)).2
        (asyncTrainClients env tdl (distributeModel s)).1).1 k
    exact ⟨rfl, h1, h2, h3, h4⟩

/-- C10: a round called with validation_data equal to None skips the whole
early-stopping block: the best loss, the counter, the checkpoint log, the
patience bound and the configuration are all exactly what they were before the
round, whether or not aggregation raised; only the global weights and the
client models can change. -/
theorem c10_no_validation_frame (env : RoundEnv) (tdl epochs : Nat) (s : FLState) :
    (globalTrainingRound env tdl epochs none s).1.bestLoss = s.bestLoss
    ∧ (globalTrainingRound env tdl epochs none s).1.epochsWithoutImprovement
      = s.epochsWithoutImprovement
    ∧ (globalTrainingRound env tdl epochs none s).1.checkpoints = s.checkpoints
    ∧ (globalTrainingRound env tdl epochs none s).1.patience = s.patience
    ∧ (globalTrainingRound env tdl epochs none s).1.aggregationMethod = s.aggregationMethod
    ∧ (globalTrainingRound env tdl epochs none s).1.secureAggregationFlag
      = s.secureAggregationFlag := by
  unfold globalTrainingRound
  dsimp only
  rw [validationPhase_none]
  split
  · rw [aggregateUpdates_fst]
    exact ⟨rfl, rfl, rfl, rfl, rfl, rfl⟩
  · rw [aggregateUpdates_fst]
    exact ⟨rfl, rfl, rfl, rfl, rfl, rfl⟩

/-- C2: in every validated error-free round the counter resets to 0 when the
new validation loss is strictly below the stored best loss and is incremented
by exactly 1 otherwise; and on the concrete loss sequence 0.5, 0.6, 0.7 with
patience 2 the run is Improving after round 1, Stalled 1 after round 2, and
Stopped after round 3. -/
theorem c2_early_stopping_counter :
    (∀ (env : RoundEnv) (tdl epochs vn : Nat) (s t : FLState),
        globalTrainingRound env tdl epochs (some (vn + 1)) s = (t, none) →
        (((env.evalLoss t.globalWeights).lt s.bestLoss = true →
            t.epochsWithoutImprovement = 0)
         ∧ ((env.evalLoss t.globalWeights).lt s.bestLoss = false →
            t.epochsWithoutImprovement = s.epochsWithoutImprovement + 1)))
    ∧ specStatus c2s1 = RunStatus.improving
    ∧ specStatus c2s2 = RunStatus.stalled 1
    ∧ specStatus c2s3 = RunStatus.stopped := by
  refine ⟨?_, of_decide_eq_true (by with_unfolding_all rfl),
    of_decide_eq_true (by with_unfolding_all rfl),
    of_decide_eq_true (by with_unfolding_all rfl)⟩
  intro env tdl epochs vn s t h
  have h2 : (globalTrainingRound env tdl epochs (some (vn + 1)) s).2 = none := by
    rw [h]
  have hok := globalTrainingRound_ok env tdl epochs (some (vn + 1)) s h2
  rw [h] at hok
  have ht : t = validationPhase env epochs (some (vn + 1))
      (aggregateUpdates env.noise (asyncTrainClients env tdl (distributeModel s)).2
        (asyncTrainClients env tdl (distributeModel s)).1).1 := by
    have hfst := congrArg Prod.fst hok
    simpa using hfst
  set A := (aggregateUpdates env.noise (asyncTrainClients env tdl (distributeModel s)).2
      (asyncTrainClients env tdl (distributeModel s)).1).1 with hA
  have hbl : A.bestLoss = s.bestLoss := by
    rw [hA, aggregateUpdates_fst]
    rfl
  have hewi : A.epochsWithoutImprovement = s.epochsWithoutImprovement := by
    rw [hA, aggregateUpdates_fst]
    rfl
  have htr : pyTruthy (some (vn + 1)) = true := by simp [pyTruthy]
  cases hl : (env.evalLoss A.globalWeights).lt A.bestLoss with
  | true =>
    rw [validationPhase_truthy_improve env epochs _ A htr hl] at ht
    subst ht
    constructor
    · intro _
      rfl
    · intro hfalse
      dsimp only at hfalse
      rw [hbl] at hl
      rw [hl] at hfalse
      cases hfalse
  | false =>
    rw [validationPhase_truthy_stall env epochs _ A htr hl] at ht
    subst ht
    constructor
    · intro htrue
      dsimp only at htrue
      rw [hbl] at hl
      rw [hl] at htrue
      cases htrue
    · intro _
      show A.epochsWithoutImprovement + 1 = s.epochsWithoutImprovement + 1
      rw [hewi]

/-- C2 witness: the transition theorem applied to the scenario's first round,
whose loss 0.5 strictly improves on the initial best loss of infinity. -/
theorem c2_early_stopping_counter_witness :
    c2s1.epochsWithoutImprovement = 0 := by
  exact (c2_early_stopping_counter.1 (lossEnv (1/2)) 1 1 0 c2init c2s1
    (of_decide_eq_true (by with_unfolding_all rfl))).1
    (of_decide_eq_true (by with_unfolding_all rfl))

/-- C8: whenever all updates carry the same positive sample count, the
weighted-average aggregation computes exactly the plain-average aggregation,
key by key (exact equality in the rational model, special values included). -/
theorem c8_weighted_eq_average_equal_samples (updates : List ClientUpdate) (n : Nat)
    (hne : updates ≠ []) (hall : ∀ u ∈ updates, u.numSamples = n) (hn : 0 < n) :
    weightedAverageWeights updates = averageWeights updates := by
  unfold weightedAverageWeights averageWeights
  rw [map_numSamples_sum updates n hall]
  cases updates with
  | nil => exact absurd rfl hne
  | cons u0 rest =>
    unfold aggBy
    apply aggKeys_congr
    intro key col hcol
    have hsnd := collectColumn_ok_snd (u0 :: rest) key col hcol
    have hlen : col.length = (u0 :: rest).length := by
      have hl2 := congrArg List.length hsnd
      simpa using hl2
    have hcoln : ∀ p ∈ col, p.2 = n := by
      intro p hp
      have hmem : p.2 ∈ (u0 :: rest).map (fun u => u.numSamples) := by
        rw [← hsnd]
        exact List.mem_map_of_mem Prod.snd hp
      obtain ⟨u, hu, he⟩ := List.mem_map.mp hmem
      rw [← he, hall u hu]
    rw [← hlen]
    exact weightedCombine_eq_meanCombine col n hn hcoln (by rw [hlen]; simp)

/-- C8 witness: the theorem applied to two concrete updates with sample count
2 each. -/
theorem c8_weighted_eq_average_witness :
    weightedAverageWeights c8updates = averageWeights c8updates := by
  exact c8_weighted_eq_average_equal_samples c8updates 2
    (of_decide_eq_true (by with_unfolding_all rfl))
    (of_decide_eq_true (by with_unfolding_all rfl))
    (of_decide_eq_true (by with_unfolding_all rfl))

/-- C9 counterexample: with updates whose key sets disagree with each other
and with the global model (first update {a}, second update {a, b}, global
model {a, b}), average aggregation raises nothing and set_weights replaces the
global mapping by one that silently dropped key b, contradicting the claim
that any key mismatch yields an error. -/
theorem c9_mismatch_silently_dropped :
    c9u0.weights.map Prod.fst ≠ c9state.globalWeights.map Prod.fst
    ∧ aggregateUpdates (fun _ _ => 0) [c9u0, c9u1] c9state
      = ({ c9state with globalWeights := [("a", PyVal.fin (3/2))] }, none)
    ∧ lookupW [("a", PyVal.fin (3/2))] "b" = none :=
  of_decide_eq_true (by with_unfolding_all rfl)

/-- C9 as amended: average aggregation never consults the global model's key
set; it iterates exactly the first update's keys, so a successful result's key
list is the first update's key list (keys outside it are silently dropped),
and success requires every update's dict to contain every key of the first
update (a missing key is the one mismatch that does raise, as a KeyError). -/
theorem c9_first_update_keys (u0 : ClientUpdate) (rest : List ClientUpdate) (w : Weights)
    (h : averageWeights (u0 :: rest) = Except.ok w) :
    w.map Prod.fst = u0.weights.map Prod.fst
    ∧ ∀ u ∈ u0 :: rest, ∀ key ∈ u0.weights.map Prod.fst,
        (lookupW u.weights key).isSome = true := by
  unfold averageWeights aggBy at h
  constructor
  · exact aggKeys_ok_fst meanCombine (u0 :: rest) u0.weights w h
  · intro u hu key hkey
    obtain ⟨p, hp, hpk⟩ := List.mem_map.mp hkey
    obtain ⟨col, hcol⟩ := aggKeys_ok_columns meanCombine (u0 :: rest) u0.weights w h p hp
    rw [← hpk]
    exact collectColumn_ok_lookup (u0 :: rest) p.1 col hcol u hu

/-- C9 witness: the amended theorem applied to the concrete mismatch scenario,
whose aggregation result keeps exactly the first update's key list. -/
theorem c9_first_update_keys_witness :
    ([("a", PyVal.fin (3/2))] : Weights).map Prod.fst = c9u0.weights.map Prod.fst := by
  exact (c9_first_update_keys c9u0 [c9u1] [("a", PyVal.fin (3/2))]
    (of_decide_eq_true (by with_unfolding_all rfl))).1
